import Mathlib

/-!
Verification of the Scribe workflow engine (WeCanDoBetter/scribe).

Shallow embedding of the core execution engine:
  src/util.ts            runWorkflow (the dispatcher)
  src/lib/Edge.ts        Edge.write and the Pipeline class (push, runFor)
  src/lib/Node.ts        Node lifecycle, read, write, runFor, the drain loop
  src/lib/Graph.ts       Graph.addEdge, Graph.runFor
  src/lib/Output.ts      Output.queue, Output.flush

The JavaScript source is single-threaded cooperative async code.  The
embedding models a run as a pure function threading the mutable context
value explicitly; Promise.allSettled over a batch is modelled by mapping
each element to its settlement outcome and collecting the rejections, which
matches the source because settlement inspection happens only after every
promise in the batch has settled.
-/

/-- Structural model of JavaScript error values as thrown by the source:
either a plain `Error` with a message, or an `AggregateError` carrying a
list of causes plus a message. -/
inductive Err where
  | simple : String → Err
  | aggregate : List Err → String → Err
deriving Repr

/-- Extract the error of a settlement outcome, if any.  Mirrors filtering
`Promise.allSettled` results for `status === "rejected"`. -/
def errOf : Except Err Unit → Option Err
  | .ok _ => none
  | .error e => some e

/-- Outcome of an operation hook on an op-context of type alpha.  The source
installs a user workflow for every lifecycle operation and dispatches it as
`runWorkflow(op, opCtx, tail)`.  A hook here is the task form of such a
workflow: it may mutate the op context, may fail, and decides whether the
tail (the `next` continuation wired to the component internals) runs.  The
returned Bool is true exactly when the hook invoked its continuation. -/
def Hook (α : Type) : Type := α → Except Err (α × Bool)

/-- The default pass-through hook `async (_ctx, next) => await next()` that
the repository installs for every operation when none is supplied. -/
def passHook {α : Type} : Hook α := fun c => .ok (c, true)

/-- Dispatch of an operation hook, from SharedComponent.op: run the hook on
the op context; if the hook calls `next`, run the tail on the (possibly
mutated) op context. -/
def runOp {α : Type} (hk : Hook α) (c : α) (tail : α → Except Err α) :
    Except Err α :=
  match hk c with
  | .error e => .error e
  | .ok (c', true) => tail c'
  | .ok (c', false) => .ok c'

/-- Workflows, from src/types.ts: a workflow is a task, a pipeline or a
graph.  A task is a function of the context and the `next` continuation;
since the context is mutated in place in the source, a task here maps the
continuation and the current context value to the resulting context value
(or a thrown error).  A pipeline carries its `runFor` operation hook
(acting on the scalar `run` flag and the shared context of the op context)
and its workflow list.  A graph nested as a workflow is abstracted by its
`runFor` function, which the dispatcher simply awaits. -/
inductive Wf (σ : Type) where
  | task : ((σ → Except Err σ) → σ → Except Err σ) → Wf σ
  | pipeline : Hook (Bool × σ) → List (Wf σ) → Wf σ
  | graph : (σ → Except Err σ) → Wf σ

/-- Continuation built by the dispatcher for an optional tail, from
src/util.ts: `tail ? () => tail(ctx) : noopAsync`. -/
def tailFn {σ : Type} : Option (σ → Except Err σ) → σ → Except Err σ
  | some t, c => t c
  | none, c => .ok c

mutual

/-- Dispatcher, from src/util.ts runWorkflow: a task is called with the
context and the continuation; a pipeline is delegated to Pipeline.runFor
with the tail; a graph is awaited and then the tail is invoked once,
unconditionally.  The pipeline branch inlines Pipeline.runFor from
src/lib/Edge.ts (lines 170-200): dispatch the `runFor` op on the op context
`{run: true, ctx}` with the chained-next execution as the op tail, and wrap
any failure as `AggregateError([err], "Pipeline failed")`. -/
def runWf {σ : Type} : Wf σ → Option (σ → Except Err σ) → σ → Except Err σ
  | .task f, tail, c => f (tailFn tail) c
  | .graph g, tail, c =>
    match g c with
    | .ok c' => tailFn tail c'
    | .error e => .error e
  | .pipeline hk ws, tail, c =>
    match runOp hk (true, c) (fun p =>
        if p.1 then (runNext ws tail p.2).map (fun c₂ => (true, c₂))
        else .ok p) with
    | .ok p => .ok p.2
    | .error e => .error (.aggregate [e] "Pipeline failed")

/-- The recursive `next` closure of Pipeline.runFor: pop the front workflow
and dispatch it with `next` as its continuation; once the list is
exhausted, invoke the tail if one was provided.  Fidelity caveat: the
source's `next` closes over ONE shared mutable `workflows` array, whereas
this continuation hands each workflow the remaining suffix; the two agree
exactly for workflows that invoke their continuation at most once (the
only kind the theorems below run through this function), and the faithful
shared-cursor semantics for multi-call tasks is doNextF further down. -/
def runNext {σ : Type} : List (Wf σ) → Option (σ → Except Err σ) → σ →
    Except Err σ
  | [], tail, c => tailFn tail c
  | w :: ws, tail, c => runWf w (some (fun c' => runNext ws tail c')) c

end

/-- Pipeline.runFor from src/lib/Edge.ts, as a standalone entry point (the
same computation as the pipeline branch of the dispatcher). -/
def pipeRunFor {σ : Type} (hk : Hook (Bool × σ)) (ws : List (Wf σ)) (c : σ)
    (tail : Option (σ → Except Err σ)) : Except Err σ :=
  match runOp hk (true, c) (fun p =>
      if p.1 then (runNext ws tail p.2).map (fun c₂ => (true, c₂))
      else .ok p) with
  | .ok p => .ok p.2
  | .error e => .error (.aggregate [e] "Pipeline failed")

theorem runWf_pipeline {σ : Type} (hk : Hook (Bool × σ)) (ws : List (Wf σ))
    (tail : Option (σ → Except Err σ)) (c : σ) :
    runWf (.pipeline hk ws) tail c = pipeRunFor hk ws c tail := by
  rw [runWf, pipeRunFor]

/-! ### C1: counter and ordering behaviour of a pipeline of n tasks -/

/-- Context for the counter property: the shared counter together with the
value the tail observed when it was invoked (none until then). -/
abbrev CounterCtx : Type := Nat × Option Nat

/-- The canonical counting task of the spec and of tests/pipeline.ts:
increment the counter, await `next`, increment the counter again. -/
def incTask : Wf CounterCtx :=
  .task (fun next c => (next (c.1 + 1, c.2)).map (fun c' => (c'.1 + 1, c'.2)))

/-- The tail that records the counter value at the moment it is invoked. -/
def recordTail : CounterCtx → Except Err CounterCtx :=
  fun c => .ok (c.1, some c.1)

theorem runNext_incTask (n : Nat) :
    ∀ k o, runNext (List.replicate n incTask) (some recordTail) (k, o) =
      .ok (k + 2 * n, some (k + n)) := by
  induction n with
  | zero => intro k o; simp [runNext, tailFn, recordTail]
  | succ m ih =>
    intro k o
    simp only [incTask, Except.map] at ih ⊢
    rw [List.replicate_succ, runNext, runWf]
    simp only [tailFn, ih]
    simp only [Except.ok.injEq, Prod.mk.injEq, Option.some.injEq]
    omega

/-- Events observed while a pipeline of instrumented tasks runs. -/
inductive TraceEv where
  | fwd : Nat → TraceEv
  | bwd : Nat → TraceEv
  | tailE : TraceEv
deriving Repr, DecidableEq

/-- Context for the ordering property: the list of events so far. -/
abbrev TraceCtx : Type := List TraceEv

/-- An instrumented task with identity i: record a forward event, await
`next`, record a backward event. -/
def traceTask (i : Nat) : Wf TraceCtx :=
  .task (fun next c => (next (c ++ [.fwd i])).map (fun c' => c' ++ [.bwd i]))

/-- The tail that records its own invocation. -/
def traceTail : TraceCtx → Except Err TraceCtx :=
  fun c => .ok (c ++ [.tailE])

theorem runNext_traceTask (ids : List Nat) :
    ∀ acc, runNext (ids.map traceTask) (some traceTail) acc =
      .ok (acc ++ ids.map TraceEv.fwd ++ [TraceEv.tailE] ++
        (ids.map TraceEv.bwd).reverse) := by
  induction ids with
  | nil => intro acc; simp [runNext, tailFn, traceTail]
  | cons i ids ih =>
    intro acc
    rw [List.map_cons, runNext]
    simp only [traceTask, Except.map] at ih ⊢
    rw [runWf]
    simp only [tailFn, ih]
    simp [List.append_assoc]

/-- C1.  A pipeline of n counter tasks, run through Pipeline.runFor with the
default pass-through runFor hook, drives the counter to exactly 2n, and the
tail observes the counter at exactly n; moreover a pipeline of instrumented
tasks records the forward events in list order, then the tail, then the
backward events in exact reverse (LIFO) order. -/
theorem pipeline_counter_and_order :
    (∀ n : Nat,
      pipeRunFor passHook (List.replicate n incTask) (0, none)
        (some recordTail) = .ok (2 * n, some n)) ∧
    (∀ ids : List Nat,
      pipeRunFor passHook (ids.map traceTask) [] (some traceTail) =
        .ok (ids.map TraceEv.fwd ++ [TraceEv.tailE] ++
          (ids.map TraceEv.bwd).reverse)) := by
  constructor
  · intro n
    rw [pipeRunFor, runOp, passHook]
    simp only [if_pos rfl, runNext_incTask n 0 none]
    simp [Except.map]
  · intro ids
    rw [pipeRunFor, runOp, passHook]
    simp only [if_pos rfl, runNext_traceTask ids []]
    simp [Except.map]

/-! ### C10: a task that never calls `next`, under the shared cursor -/

/-- Deep model of a pipeline task body, for the faithful shared-cursor
semantics of Pipeline.runFor: a task is a finite sequence of context
mutations separated by awaits of the shared `next` closure, ending either
by returning or by throwing.  `ret f` mutates and finishes without calling
`next`; `thr m` throws; `step f rest` mutates, awaits `next()` once, then
continues as `rest`.  A task may thus call `next` zero, one or many
times, exactly as a source task can. -/
inductive TaskProg (σ : Type) where
  | ret : (σ → σ) → TaskProg σ
  | thr : String → TaskProg σ
  | step : (σ → σ) → TaskProg σ → TaskProg σ

mutual

/-- Run one task body against the SHARED workflow cursor of
Pipeline.runFor (src/lib/Edge.ts lines 180-188): every time the body
awaits `next()`, the front of the single mutable `workflows` array is
shifted off and dispatched (or, when the array is empty, the tail runs).
The remaining cursor is threaded in and out, so a later `next()` by an
enclosing task continues from wherever the cursor has advanced to.  Fuel
decreases structurally on every call so that concrete runs evaluate;
`none` means the fuel ran out. -/
def runProgF {σ : Type} : Nat → TaskProg σ → List (TaskProg σ) → σ →
    Option (σ → Except Err σ) → Option (Except Err (List (TaskProg σ) × σ))
  | 0, _, _, _, _ => none
  | _ + 1, .ret f, ws, c, _ => some (.ok (ws, f c))
  | _ + 1, .thr m, _, _, _ => some (.error (.simple m))
  | n + 1, .step f rest, ws, c, tail =>
    match doNextF n ws (f c) tail with
    | none => none
    | some (.error e) => some (.error e)
    | some (.ok (ws', c')) => runProgF n rest ws' c' tail

/-- The shared `next` closure itself: shift the front workflow off the
cursor and dispatch it (passing the cursor on), or run the tail when the
cursor is exhausted.  Note that once the cursor is empty every further
`next()` runs the tail again, exactly as `workflows.shift()` returning
undefined does in the source. -/
def doNextF {σ : Type} : Nat → List (TaskProg σ) → σ →
    Option (σ → Except Err σ) → Option (Except Err (List (TaskProg σ) × σ))
  | 0, _, _, _ => none
  | _ + 1, [], c, tail => some ((tailFn tail c).map (fun c' => ([], c')))
  | n + 1, t :: ws, c, tail => runProgF n t ws c tail

end

/-- Pipeline.runFor over the shared cursor, for a pipeline of task
workflows with the default pass-through runFor hook: start the `next`
chain on the snapshot and wrap any failure as
`AggregateError([err], "Pipeline failed")`. -/
def pipeRunForC {σ : Type} (n : Nat) (ws : List (TaskProg σ)) (c : σ)
    (tail : Option (σ → Except Err σ)) : Option (Except Err σ) :=
  match doNextF n ws c tail with
  | none => none
  | some (.ok (_, c')) => some (.ok c')
  | some (.error e) => some (.error (.aggregate [e] "Pipeline failed"))

/-- Counterexample to C10 as stated: the claim fails on the shared cursor
when a task BEFORE the halting one awaits `next()` twice.  In the pipeline
[A, H, B] where A records 1 and calls `next` twice, H records 2 and never
calls `next`, B records 3 and the tail records 4: the first `next` of A
shifts and runs H, which ends only its own turn; the second `next` of A
shifts and runs B, and the own `next` of B exhausts the cursor and runs
the tail.  The run settles at [1, 2, 3, 4] — the workflow after the
halting task ran and the tail ran — unlike the pipeline truncated after H,
which settles at [1, 2]. -/
theorem pipeline_double_next_counterexample :
    pipeRunForC 10
        [TaskProg.step (fun c => c ++ [1])
            (.step (fun c => c) (.ret (fun c => c))),
          .ret (fun c => c ++ [2]),
          .step (fun c => c ++ [3]) (.ret (fun c => c))]
        ([] : List Nat) (some (fun c => .ok (c ++ [4]))) =
      some (.ok [1, 2, 3, 4]) ∧
    pipeRunForC 10
        [TaskProg.step (fun c => c ++ [1])
            (.step (fun c => c) (.ret (fun c => c))),
          .ret (fun c => c ++ [2])]
        ([] : List Nat) none =
      some (.ok [1, 2]) :=
  ⟨rfl, rfl⟩

/-- A pass-through-shaped task: mutate by the first component, await
`next()` exactly once, mutate by the second component, finish. -/
def mkPass {σ : Type} (p : (σ → σ) × (σ → σ)) : TaskProg σ :=
  .step p.1 (.ret p.2)

/-- Context value produced by a prefix of pass-through tasks followed by a
halting task: forward mutations in order, the halting mutation, then the
backward mutations in reverse. -/
def pipeVal {σ : Type} : List ((σ → σ) × (σ → σ)) → (σ → σ) → σ → σ
  | [], h, c => h c
  | p :: ps, h, c => p.2 (pipeVal ps h (p.1 c))

theorem doNextF_pass {σ : Type} (h : σ → σ) :
    ∀ (ps : List ((σ → σ) × (σ → σ))) (n : Nat) (c : σ)
      (ws₂ : List (TaskProg σ)) (tail : Option (σ → Except Err σ)),
      2 * ps.length + 2 ≤ n →
      doNextF n (ps.map mkPass ++ .ret h :: ws₂) c tail =
        some (.ok (ws₂, pipeVal ps h c)) := by
  intro ps
  induction ps with
  | nil =>
    intro n c ws₂ tail hn
    match n, hn with
    | k + 2, _ => exact rfl
  | cons p ps ih =>
    intro n c ws₂ tail hn
    obtain ⟨f, g⟩ := p
    match n, hn with
    | k + 2, hn =>
      have hk : 2 * ps.length + 2 ≤ k := by
        simp only [List.length_cons] at hn
        omega
      have hik := ih k (f c) ws₂ tail hk
      rw [List.map_cons, List.cons_append]
      show (match doNextF k (ps.map mkPass ++ .ret h :: ws₂) (f c) tail with
        | none => none
        | some (.error e) => some (.error e)
        | some (.ok (ws', c')) => runProgF k (.ret g) ws' c' tail) =
        some (.ok (ws₂, pipeVal ((f, g) :: ps) h c))
      rw [hik]
      match k, hk with
      | k' + 1, _ => rfl

/-- C10 (amended).  Under the shared-cursor semantics of Pipeline.runFor
(default runFor hook): if every task at the positions before i awaits
`next` exactly once and completes normally, and the task at position i
never calls `next`, then — given enough fuel for the prefix — the run is
identical to the run of the pipeline truncated right after position i with
no tail at all (so the workflows after i never run and the supplied tail
never runs), and it settles successfully with the value produced by the
prefix and the halting task: the silent halt raises no error.  When a task
before i awaits `next` more than once this fails: the shared cursor
advances past the halting task (see the counterexample). -/
theorem pipeline_halts_silently_cursor {σ : Type}
    (ps : List ((σ → σ) × (σ → σ))) (h : σ → σ)
    (ws₂ : List (TaskProg σ)) (c : σ)
    (tail : Option (σ → Except Err σ)) (n : Nat)
    (hn : 2 * ps.length + 2 ≤ n) :
    pipeRunForC n (ps.map mkPass ++ .ret h :: ws₂) c tail =
      pipeRunForC n (ps.map mkPass ++ [.ret h]) c none ∧
    pipeRunForC n (ps.map mkPass ++ .ret h :: ws₂) c tail =
      some (.ok (pipeVal ps h c)) := by
  have h₁ := doNextF_pass h ps n c ws₂ tail hn
  have h₂ := doNextF_pass h ps n c [] none hn
  rw [pipeRunForC, pipeRunForC, h₁, h₂]
  exact ⟨rfl, rfl⟩

/-- Concrete instance of the amended silent-halt theorem: one single-next
counter task before a halting task, with a recording workflow and a tail
after it, at fuel 10. -/
theorem pipeline_halts_silently_cursor_witness :
    pipeRunForC 10
        ([((fun c => c + 1 : Nat → Nat), (fun c => c + 1))].map mkPass ++
          .ret (fun c => c + 5) :: [.ret (fun c => c + 9)])
        0 (some (fun c => .ok (c + 100))) =
      some (.ok (pipeVal [((fun c => c + 1), (fun c => c + 1))]
        (fun c => c + 5) 0)) :=
  (pipeline_halts_silently_cursor
    [((fun c => c + 1), (fun c => c + 1))] (fun c => c + 5)
    [.ret (fun c => c + 9)] 0 (some (fun c => .ok (c + 100))) 10
    (by decide)).2

/-! ### C3: Pipeline.push error aggregation -/

/-- Hook type for the `push` operation: the op context is
`{push, pushed, workflow}`. -/
def PushHook (σ : Type) : Type := Hook (Bool × Bool × Wf σ)

/-- Outcome of pushing one workflow, from Pipeline.push in src/lib/Edge.ts:
dispatch the `push` op on `{push: true, pushed: false, workflow}` whose
tail appends the workflow to the list when `push` is still set.  Returns
whether the workflow was appended, and the rejection reason if the hook
threw. -/
def pushOne {σ : Type} (hk : PushHook σ) (w : Wf σ) : Bool × Option Err :=
  match hk (true, false, w) with
  | .error e => (false, some e)
  | .ok ((push, _, _), callNext) =>
    if callNext && push then (true, none) else (false, none)

/-- Rejection reasons collected over the batch, in item order, as
Promise.allSettled followed by the rejected filter does. -/
def pushErrs {σ : Type} (hk : PushHook σ) (items : List (Wf σ)) : List Err :=
  items.filterMap (fun w => (pushOne hk w).2)

/-- The workflows that were actually appended, in item order. -/
def pushKept {σ : Type} (hk : PushHook σ) (items : List (Wf σ)) :
    List (Wf σ) :=
  items.filter (fun w => (pushOne hk w).1)

/-- Pipeline.push from src/lib/Edge.ts (lines 134-160): an empty argument
list is the hard error "No workflows provided"; otherwise every item is
pushed through the `push` op, the rejections are collected, and if any item
rejected the call throws an aggregate error whose message says whether all
or only some pushes failed.  Successfully appended items stay appended. -/
def pipePushM {σ : Type} (hk : PushHook σ) (ws₀ : List (Wf σ)) :
    List (Wf σ) → List (Wf σ) × Except Err Unit
  | [] => (ws₀, .error (.simple "No workflows provided"))
  | w :: rest =>
    let errs := pushErrs hk (w :: rest)
    (ws₀ ++ pushKept hk (w :: rest),
      if errs.isEmpty then .ok ()
      else
        .error (.aggregate errs
          (if errs.length = (w :: rest).length then "All pushes failed"
           else "Some pushes failed")))

theorem pushErrs_length_le {σ : Type} (hk : PushHook σ)
    (items : List (Wf σ)) : (pushErrs hk items).length ≤ items.length := by
  induction items with
  | nil => simp [pushErrs]
  | cons w items ih =>
    rw [pushErrs, List.filterMap_cons]
    cases (pushOne hk w).2 with
    | none => exact Nat.le_succ_of_le ih
    | some e => simpa [pushErrs] using ih

theorem pushErrs_eq_nil_iff {σ : Type} (hk : PushHook σ)
    (items : List (Wf σ)) :
    pushErrs hk items = [] ↔ ∀ w ∈ items, (pushOne hk w).2 = none := by
  induction items with
  | nil => simp [pushErrs]
  | cons w items ih =>
    rw [pushErrs, List.filterMap_cons]
    cases hw : (pushOne hk w).2 with
    | none => simp [pushErrs, hw, ih]
    | some e => simp [hw]

theorem pushErrs_length_eq_iff {σ : Type} (hk : PushHook σ)
    (items : List (Wf σ)) :
    (pushErrs hk items).length = items.length ↔
      ∀ w ∈ items, (pushOne hk w).2 ≠ none := by
  induction items with
  | nil => simp [pushErrs]
  | cons w items ih =>
    rw [pushErrs, List.filterMap_cons]
    cases hw : (pushOne hk w).2 with
    | none =>
      have hle := pushErrs_length_le hk items
      constructor
      · intro hlen
        exfalso
        rw [show items.filterMap (fun w => (pushOne hk w).2) =
          pushErrs hk items from rfl] at hlen
        simp at hlen
        omega
      · intro hall
        exact absurd hw (hall w (by simp))
    | some e =>
      simp only [List.length_cons, List.length]
      constructor
      · intro hlen w' hw'
        rcases List.mem_cons.mp hw' with h | h
        · subst h; simp [hw]
        · exact (ih.mp (by simpa [pushErrs] using Nat.succ_injective hlen)) w' h
      · intro hall
        have := ih.mpr (fun w' hw' => hall w' (List.mem_cons_of_mem _ hw'))
        simpa [pushErrs] using congrArg Nat.succ this

theorem pushErrs_ne_nil_iff {σ : Type} (hk : PushHook σ)
    (items : List (Wf σ)) :
    pushErrs hk items ≠ [] ↔ ∃ w ∈ items, (pushOne hk w).2 ≠ none := by
  rw [Ne, pushErrs_eq_nil_iff]
  push_neg
  rfl

theorem pipePushM_cons {σ : Type} (hk : PushHook σ) (ws₀ : List (Wf σ))
    (w : Wf σ) (items : List (Wf σ)) :
    pipePushM hk ws₀ (w :: items) =
      (ws₀ ++ pushKept hk (w :: items),
        if (pushErrs hk (w :: items)).isEmpty then .ok ()
        else
          .error (.aggregate (pushErrs hk (w :: items))
            (if (pushErrs hk (w :: items)).length = (w :: items).length
             then "All pushes failed" else "Some pushes failed"))) := by
  rw [pipePushM]

/-- C3.  Pushing zero workflows always rejects with "No workflows
provided".  Pushing a non-empty batch rejects with the aggregate message
"All pushes failed" precisely when every item's push hook threw, and with
"Some pushes failed" precisely when a proper, non-empty subset threw; in
every case the items whose hooks succeeded remain appended to the workflow
list in order, with no rollback of successful siblings. -/
theorem pipeline_push_aggregation {σ : Type} (hk : PushHook σ)
    (ws₀ items : List (Wf σ)) (hne : items ≠ []) :
    (pipePushM hk ws₀ [] = (ws₀, .error (.simple "No workflows provided"))) ∧
    ((∃ cs, (pipePushM hk ws₀ items).2 =
        .error (.aggregate cs "All pushes failed")) ↔
      ∀ w ∈ items, (pushOne hk w).2 ≠ none) ∧
    ((∃ cs, (pipePushM hk ws₀ items).2 =
        .error (.aggregate cs "Some pushes failed")) ↔
      (∃ w ∈ items, (pushOne hk w).2 ≠ none) ∧
        ∃ w ∈ items, (pushOne hk w).2 = none) ∧
    (pipePushM hk ws₀ items).1 = ws₀ ++ pushKept hk items := by
  obtain ⟨w, rest, rfl⟩ := List.exists_cons_of_ne_nil hne
  rw [pipePushM_cons]
  by_cases hnil : pushErrs hk (w :: rest) = []
  · have hemp : (pushErrs hk (w :: rest)).isEmpty = true := by
      simp [hnil]
    rw [if_pos hemp]
    refine ⟨by rw [pipePushM], ?_, ?_, rfl⟩
    · constructor
      · rintro ⟨cs, h⟩; exact absurd h (by simp)
      · intro hall
        exact absurd ((pushErrs_eq_nil_iff hk _).mp hnil w (by simp))
          (hall w (by simp))
    · constructor
      · rintro ⟨cs, h⟩; exact absurd h (by simp)
      · rintro ⟨⟨w', hw', hfail⟩, -⟩
        exact absurd ((pushErrs_eq_nil_iff hk _).mp hnil w' hw') hfail
  · have hemp : (pushErrs hk (w :: rest)).isEmpty = false := by
      simpa using hnil
    rw [if_neg (by simp [hemp])]
    by_cases hlen :
        (pushErrs hk (w :: rest)).length = (w :: rest).length
    · rw [if_pos hlen]
      refine ⟨by rw [pipePushM], ?_, ?_, rfl⟩
      · constructor
        · intro _; exact (pushErrs_length_eq_iff hk _).mp hlen
        · intro _; exact ⟨pushErrs hk (w :: rest), rfl⟩
      · constructor
        · rintro ⟨cs, h⟩
          simp only [Except.error.injEq, Err.aggregate.injEq] at h
          exact absurd h.2 (by decide)
        · rintro ⟨-, w', hw', hok⟩
          exact absurd ((pushErrs_length_eq_iff hk _).mp hlen w' hw')
            (by simp [hok])
    · rw [if_neg hlen]
      refine ⟨by rw [pipePushM], ?_, ?_, rfl⟩
      · constructor
        · rintro ⟨cs, h⟩
          simp only [Except.error.injEq, Err.aggregate.injEq] at h
          exact absurd h.2 (by decide)
        · intro hall
          exact absurd ((pushErrs_length_eq_iff hk _).mpr hall) hlen
      · constructor
        · intro _
          refine ⟨(pushErrs_ne_nil_iff hk _).mp hnil, ?_⟩
          by_contra hnone
          push_neg at hnone
          exact hlen ((pushErrs_length_eq_iff hk _).mpr
            (fun w' hw' => hnone w' hw'))
        · intro _; exact ⟨pushErrs hk (w :: rest), rfl⟩

/-- A push hook that rejects pipeline-shaped items and passes everything
else through, used to exercise the partial-failure path. -/
def pushBoomHook : PushHook Nat := fun c =>
  match c.2.2 with
  | .pipeline _ _ => .error (.simple "boom")
  | _ => .ok (c, true)

/-- Concrete instance of the push-aggregation theorem: a two-item batch
whose hook rejects exactly the pipeline-shaped item keeps the surviving
sibling appended. -/
theorem pipeline_push_aggregation_witness :
    (pipePushM pushBoomHook ([] : List (Wf Nat))
      [.pipeline passHook [], .task (fun _ c => .ok c)]).1 =
    [] ++ pushKept pushBoomHook
      [.pipeline passHook [], .task (fun _ c => .ok c)] :=
  (pipeline_push_aggregation pushBoomHook
    [] [.pipeline passHook [], .task (fun _ c => .ok c)]
    (by simp)).2.2.2

/-! ### Node state model (src/lib/Node.ts) -/

/-- Observable state of a Node: the `initialized` and `corrupted` flags,
the edge set (identified by edge ids, insertion order kept), and the FIFO
context queue.  The `looping` flag and the drain loop are modelled with
the loop itself (see the drain-loop section). -/
structure NodeSt (σ : Type) where
  initialized : Bool
  corrupted : Bool
  edges : List Nat
  queue : List σ
deriving Repr

/-- Node.#init from src/lib/Node.ts (lines 387-422): guards, the `init`
op whose tail sets the `initialized` flag, and a catch that clears
`initialized`, marks the node `corrupted` and wraps the error as
`AggregateError([err], "Failed to initialize node")`. -/
def nodeInitM {σ : Type} (s : NodeSt σ) (hk : Hook (Bool × Bool)) :
    NodeSt σ × Except Err Unit :=
  if s.corrupted then
    ({ s with initialized := false, corrupted := true },
      .error (.aggregate [.simple "Node is corrupted"]
        "Failed to initialize node"))
  else if s.initialized then
    ({ s with initialized := false, corrupted := true },
      .error (.aggregate [.simple "Node is already initialized"]
        "Failed to initialize node"))
  else
    match hk (true, false) with
    | .error e =>
      ({ s with initialized := false, corrupted := true },
        .error (.aggregate [e] "Failed to initialize node"))
    | .ok ((doInit, _), callNext) =>
      if callNext then
        if doInit then ({ s with initialized := true }, .ok ())
        else (s, .ok ())
      else (s, .ok ())

/-- Node.destroy from src/lib/Node.ts (lines 429-452): guards, the
`destroy` op whose tail clears the `initialized` flag, and a catch that
clears `initialized`, marks the node `corrupted` and wraps the error as
`AggregateError([err], "Failed to destroy node")`. -/
def nodeDestroyM {σ : Type} (s : NodeSt σ) (hk : Hook (Bool × Bool)) :
    NodeSt σ × Except Err Unit :=
  if s.corrupted then
    ({ s with initialized := false, corrupted := true },
      .error (.aggregate [.simple "Node is corrupted"]
        "Failed to destroy node"))
  else if !s.initialized then
    ({ s with initialized := false, corrupted := true },
      .error (.aggregate [.simple "Node is not initialized"]
        "Failed to destroy node"))
  else
    match hk (true, false) with
    | .error e =>
      ({ s with initialized := false, corrupted := true },
        .error (.aggregate [e] "Failed to destroy node"))
    | .ok (_, callNext) =>
      if callNext then ({ s with initialized := false }, .ok ())
      else (s, .ok ())

/-- Node.runFor from src/lib/Node.ts (lines 225-274): guards for corrupted
and uninitialized, then the `runFor` op chain (the re-run guard, the `run`
op with a fresh Output, and the auto-flush), whose combined settlement is
abstracted as `body`; the catch wraps any failure as
`AggregateError([err], "Failed to run node for context")`, dispatches it
and re-throws.  No branch assigns the `initialized` or `corrupted`
flags, so the state is returned unchanged outside the guard errors. -/
def nodeRunForM {σ : Type} (s : NodeSt σ) (body : Except Err Unit) :
    NodeSt σ × Except Err Unit :=
  if s.corrupted then
    (s, .error (.aggregate [.simple "Cannot run corrupted node"]
      "Failed to run node for context"))
  else if !s.initialized then
    (s, .error (.aggregate [.simple "Cannot run uninitialized node"]
      "Failed to run node for context"))
  else
    match body with
    | .ok _ => (s, .ok ())
    | .error e =>
      (s, .error (.aggregate [e] "Failed to run node for context"))

/-- Node.read from src/lib/Node.ts (lines 286-322): guards (these throw
unwrapped), then the `incoming` op on
`{edge, ctx, api, queue: true, queued: false}` whose tail pushes the
context on the node queue, sets `queued`, and starts the drain loop if it
is not running (the loop is modelled separately; its kick-off does not
change the queue).  There is no catch, so hook failures propagate
unwrapped. -/
def nodeReadM {σ : Type} (s : NodeSt σ) (hk : Hook (Bool × Bool × σ))
    (c : σ) : NodeSt σ × Except Err Unit :=
  if s.corrupted then
    (s, .error (.simple "Cannot read from corrupted node"))
  else if !s.initialized then
    (s, .error (.simple "Cannot read from uninitialized node"))
  else
    match hk (true, false, c) with
    | .error e => (s, .error e)
    | .ok ((q, qd, _), callNext) =>
      if !callNext then (s, .ok ())
      else if !q then (s, .ok ())
      else if qd then
        (s, .error (.simple
          "Node has already been queued. If this is intentional, then set `queue` to `false` in the operation context."))
      else ({ s with queue := s.queue ++ [c] }, .ok ())

/-- Node.addEdge from src/lib/Node.ts (lines 150-181): guards, the
`addEdge` op on `{edge, add: true, added: false}` whose tail inserts the
edge into the node edge set (a JS Set, so re-inserting a member is a
no-op), and a catch that wraps every failure as
`AggregateError([err], "Failed to add edge to node")`. -/
def nodeAddEdgeM {σ : Type} (s : NodeSt σ) (hk : Hook (Bool × Bool))
    (e : Nat) : NodeSt σ × Except Err Unit :=
  if s.corrupted then
    (s, .error (.aggregate [.simple "Cannot add edge to corrupted node"]
      "Failed to add edge to node"))
  else if !s.initialized then
    (s, .error (.aggregate [.simple "Cannot add edge to uninitialized node"]
      "Failed to add edge to node"))
  else
    match hk (true, false) with
    | .error er => (s, .error (.aggregate [er] "Failed to add edge to node"))
    | .ok ((add, added), callNext) =>
      if !callNext then (s, .ok ())
      else if added && add then
        (s, .error (.aggregate
          [.simple
            "Edge has already been added. If this is intentional, then set `add` to `false` in the operation context."]
          "Failed to add edge to node"))
      else if add then
        ({ s with edges := if e ∈ s.edges then s.edges else s.edges ++ [e] },
          .ok ())
      else (s, .ok ())

/-- Node.removeEdge from src/lib/Node.ts (lines 189-217): guards, the
`removeEdge` op whose tail deletes the edge from the node edge set, and a
catch wrapping failures as
`AggregateError([err], "Failed to remove edge from node")`. -/
def nodeRemoveEdgeM {σ : Type} (s : NodeSt σ) (hk : Hook (Bool × Bool))
    (e : Nat) : NodeSt σ × Except Err Unit :=
  if s.corrupted then
    (s, .error (.aggregate [.simple "Cannot remove edge from corrupted node"]
      "Failed to remove edge from node"))
  else if !s.initialized then
    (s, .error (.aggregate
      [.simple "Cannot remove edge from uninitialized node"]
      "Failed to remove edge from node"))
  else
    match hk (true, false) with
    | .error er =>
      (s, .error (.aggregate [er] "Failed to remove edge from node"))
    | .ok ((rm, removed), callNext) =>
      if !callNext then (s, .ok ())
      else if removed && rm then
        (s, .error (.aggregate
          [.simple
            "Edge has already been removed. If this is intentional, then set `remove` to `false` in the operation context."]
          "Failed to remove edge from node"))
      else if rm then
        ({ s with edges := s.edges.filter (fun x => x ≠ e) }, .ok ())
      else (s, .ok ())

/-! ### C7: corruption is set only by init/destroy failures and is sticky -/

/-- Boolean failure test on a settlement result. -/
def failed : Except Err Unit → Bool
  | .ok _ => false
  | .error _ => true

@[simp] theorem failed_ok : failed (.ok ()) = false := rfl

@[simp] theorem failed_error (e : Err) : failed (.error e) = true := rfl

/-- C7.  A failing Node.runFor is wrapped as an aggregate error but leaves
the whole node state (in particular `corrupted` and `initialized`)
unchanged; read, addEdge and removeEdge never change the `corrupted` flag
either; a failing init or destroy is what sets `corrupted`; and once
`corrupted` holds, every modelled operation rejects while `corrupted`
stays true. -/
theorem node_corruption_policy {σ : Type} (s : NodeSt σ)
    (hk2 : Hook (Bool × Bool)) (hk3 : Hook (Bool × Bool × σ)) (e : Nat)
    (c : σ) (body : Except Err Unit) (er : Err) :
    ((nodeRunForM s body).1 = s) ∧
    (s.corrupted = false → s.initialized = true → body = .error er →
      (nodeRunForM s body).2 =
        .error (.aggregate [er] "Failed to run node for context")) ∧
    ((nodeReadM s hk3 c).1.corrupted = s.corrupted) ∧
    ((nodeAddEdgeM s hk2 e).1.corrupted = s.corrupted) ∧
    ((nodeRemoveEdgeM s hk2 e).1.corrupted = s.corrupted) ∧
    (failed (nodeInitM s hk2).2 = true →
      (nodeInitM s hk2).1.corrupted = true) ∧
    (failed (nodeDestroyM s hk2).2 = true →
      (nodeDestroyM s hk2).1.corrupted = true) ∧
    (s.corrupted = true →
      (failed (nodeRunForM s body).2 = true ∧
        (nodeRunForM s body).1.corrupted = true) ∧
      (failed (nodeReadM s hk3 c).2 = true ∧
        (nodeReadM s hk3 c).1.corrupted = true) ∧
      (failed (nodeAddEdgeM s hk2 e).2 = true ∧
        (nodeAddEdgeM s hk2 e).1.corrupted = true) ∧
      (failed (nodeRemoveEdgeM s hk2 e).2 = true ∧
        (nodeRemoveEdgeM s hk2 e).1.corrupted = true) ∧
      (failed (nodeInitM s hk2).2 = true ∧
        (nodeInitM s hk2).1.corrupted = true) ∧
      (failed (nodeDestroyM s hk2).2 = true ∧
        (nodeDestroyM s hk2).1.corrupted = true)) := by
  refine ⟨?_, ?_, ?_, ?_, ?_, ?_, ?_, ?_⟩
  · rw [nodeRunForM.eq_def]
    split
    · rfl
    · split
      · rfl
      · cases body <;> rfl
  · intro hc hi hb
    rw [nodeRunForM.eq_def, if_neg (by simp [hc]), if_neg (by simp [hi]), hb]
  · rw [nodeReadM.eq_def]
    split
    · rfl
    · split
      · rfl
      · split
        · rfl
        · split
          · rfl
          · split
            · rfl
            · split
              · rfl
              · rfl
  · rw [nodeAddEdgeM.eq_def]
    split
    · rfl
    · split
      · rfl
      · split
        · rfl
        · split
          · rfl
          · split
            · rfl
            · split
              · rfl
              · rfl
  · rw [nodeRemoveEdgeM.eq_def]
    split
    · rfl
    · split
      · rfl
      · split
        · rfl
        · split
          · rfl
          · split
            · rfl
            · split
              · rfl
              · rfl
  · rw [nodeInitM.eq_def]
    split
    · intro _; rfl
    · split
      · intro _; rfl
      · split
        · intro _; rfl
        · split
          · split
            · intro h; exact absurd h (by simp)
            · intro h; exact absurd h (by simp)
          · intro h; exact absurd h (by simp)
  · rw [nodeDestroyM.eq_def]
    split
    · intro _; rfl
    · split
      · intro _; rfl
      · split
        · intro _; rfl
        · split
          · intro h; exact absurd h (by simp)
          · intro h; exact absurd h (by simp)
  · intro hcor
    refine ⟨?_, ?_, ?_, ?_, ?_, ?_⟩
    · rw [nodeRunForM.eq_def, if_pos hcor]; exact ⟨rfl, hcor⟩
    · rw [nodeReadM.eq_def, if_pos hcor]; exact ⟨rfl, hcor⟩
    · rw [nodeAddEdgeM.eq_def, if_pos hcor]; exact ⟨rfl, hcor⟩
    · rw [nodeRemoveEdgeM.eq_def, if_pos hcor]; exact ⟨rfl, hcor⟩
    · rw [nodeInitM.eq_def, if_pos hcor]; exact ⟨rfl, rfl⟩
    · rw [nodeDestroyM.eq_def, if_pos hcor]; exact ⟨rfl, rfl⟩

/-- Concrete instance of the corruption-policy theorem on a healthy node
with pass-through hooks and a failing run body: the run rejects with the
wrapped aggregate error yet the node state is untouched. -/
theorem node_corruption_policy_witness :
    ((nodeRunForM (σ := Nat) ⟨true, false, [], []⟩
        (.error (.simple "boom"))).1 = ⟨true, false, [], []⟩) ∧
    (nodeRunForM (σ := Nat) ⟨true, false, [], []⟩
        (.error (.simple "boom"))).2 =
      .error (.aggregate [.simple "boom"] "Failed to run node for context") :=
  ⟨(node_corruption_policy ⟨true, false, [], []⟩ passHook passHook 0 0
      (.error (.simple "boom")) (.simple "boom")).1,
    (node_corruption_policy ⟨true, false, [], []⟩ passHook passHook 0 0
      (.error (.simple "boom")) (.simple "boom")).2.1 rfl rfl rfl⟩

/-! ### C5 and C6: Graph.runFor entry computation and failure aggregation -/

@[simp] theorem errOf_ok (u : Unit) : errOf (.ok u) = none := rfl

@[simp] theorem errOf_error (e : Err) : errOf (.error e) = some e := rfl

/-- Entry nodes, from Graph.runFor in src/lib/Graph.ts (lines 161-171):
the nodes that are the target of no edge.  Nodes are identified by ids and
an edge is a (source, target) pair of ids. -/
def entryNodes (nodes : List Nat) (edges : List (Nat × Nat)) : List Nat :=
  nodes.filter (fun nd => edges.all (fun e => e.2 != nd))

/-- Graph.runFor from src/lib/Graph.ts (lines 161-202): compute the entry
nodes before dispatching the `runFor` op; inside the op tail, zero entry
nodes throws `Error("Graph has no input nodes")`, which the catch wraps as
`AggregateError([err], "Failed to run graph")`; otherwise every entry node
is dispatched via `node.process(null, ctx)` (whose settlement is given by
`proc`), all settlements are awaited, and the rejections are wrapped as
`AggregateError(causes, "Failed to run graph")`.  Returns the list of
dispatched nodes and the settlement of the call. -/
def graphRunForM (hk : Hook (List Nat)) (nodes : List Nat)
    (edges : List (Nat × Nat)) (proc : Nat → Except Err Unit) :
    List Nat × Except Err Unit :=
  let targets := entryNodes nodes edges
  match hk targets with
  | .error e => ([], .error e)
  | .ok (ts, callNext) =>
    if callNext then
      if ts.isEmpty then
        ([], .error (.aggregate [.simple "Graph has no input nodes"]
          "Failed to run graph"))
      else
        let errs := ts.filterMap (fun nd => errOf (proc nd))
        if errs.isEmpty then (ts, .ok ())
        else (ts, .error (.aggregate errs "Failed to run graph"))
    else ([], .ok ())

/-- Reduction of Graph.runFor under the default pass-through hook. -/
theorem graphRunForM_pass (nodes : List Nat) (edges : List (Nat × Nat))
    (proc : Nat → Except Err Unit) :
    graphRunForM passHook nodes edges proc =
      (if (entryNodes nodes edges).isEmpty then
        ([], .error (.aggregate [.simple "Graph has no input nodes"]
          "Failed to run graph"))
      else
        if ((entryNodes nodes edges).filterMap
            (fun nd => errOf (proc nd))).isEmpty then
          (entryNodes nodes edges, .ok ())
        else
          (entryNodes nodes edges,
            .error (.aggregate ((entryNodes nodes edges).filterMap
              (fun nd => errOf (proc nd))) "Failed to run graph"))) := by
  rw [graphRunForM.eq_def]
  rfl

/-- C5.  Whenever every node of a graph is the target of some edge (which
includes the zero-node graph), Graph.runFor with the default runFor hook
rejects with the error "Graph has no input nodes" wrapped in the
"Failed to run graph" aggregate, and dispatches no node at all. -/
theorem graph_no_input_nodes (nodes : List Nat) (edges : List (Nat × Nat))
    (proc : Nat → Except Err Unit)
    (hempty : entryNodes nodes edges = []) :
    graphRunForM passHook nodes edges proc =
      ([], .error (.aggregate [.simple "Graph has no input nodes"]
        "Failed to run graph")) := by
  rw [graphRunForM_pass, if_pos (by simp [hempty])]

/-- Concrete instances of the no-entry-node rejection: the two-node cycle
(every node is a target) and the empty graph, both dispatching nothing. -/
theorem graph_no_input_nodes_witness :
    (entryNodes [1, 2] [(1, 2), (2, 1)] = [] ∧
      graphRunForM passHook [1, 2] [(1, 2), (2, 1)]
          (fun _ => .ok ()) =
        ([], .error (.aggregate [.simple "Graph has no input nodes"]
          "Failed to run graph"))) ∧
    (entryNodes [] [] = [] ∧
      graphRunForM passHook [] [] (fun _ => .ok ()) =
        ([], .error (.aggregate [.simple "Graph has no input nodes"]
          "Failed to run graph"))) :=
  ⟨⟨by decide, graph_no_input_nodes [1, 2] [(1, 2), (2, 1)]
      (fun _ => .ok ()) (by decide)⟩,
    ⟨by decide, graph_no_input_nodes [] [] (fun _ => .ok ()) (by decide)⟩⟩

theorem length_filterMap_errOf (proc : Nat → Except Err Unit)
    (ts : List Nat) :
    (ts.filterMap (fun nd => errOf (proc nd))).length =
      (ts.filter (fun nd => failed (proc nd))).length := by
  induction ts with
  | nil => rfl
  | cons t ts ih =>
    rw [List.filterMap_cons, List.filter_cons]
    cases hp : proc t with
    | ok u => cases u; simp [hp, ih]
    | error e => simp [hp, ih]

theorem filterMap_errOf_eq_nil (proc : Nat → Except Err Unit)
    (ts : List Nat) :
    ts.filterMap (fun nd => errOf (proc nd)) = [] ↔
      ts.filter (fun nd => failed (proc nd)) = [] := by
  induction ts with
  | nil => simp
  | cons t ts ih =>
    rw [List.filterMap_cons, List.filter_cons]
    cases hp : proc t with
    | ok u => cases u; simp [hp, ih]
    | error e => simp [hp]

/-- C6.  With at least one entry node, Graph.runFor (default hook)
dispatches the context to every entry node — also when some of them fail,
since settlement is awaited for all of them — resolves when none fail, and
otherwise rejects with a single aggregate error whose message is
"Failed to run graph" and whose cause list has exactly one entry per
failed entry-node dispatch. -/
theorem graph_failure_aggregation (nodes : List Nat)
    (edges : List (Nat × Nat)) (proc : Nat → Except Err Unit)
    (hne : entryNodes nodes edges ≠ []) :
    (graphRunForM passHook nodes edges proc).1 = entryNodes nodes edges ∧
    ((entryNodes nodes edges).filter (fun nd => failed (proc nd)) = [] →
      (graphRunForM passHook nodes edges proc).2 = .ok ()) ∧
    ((entryNodes nodes edges).filter (fun nd => failed (proc nd)) ≠ [] →
      ∃ cs, (graphRunForM passHook nodes edges proc).2 =
          .error (.aggregate cs "Failed to run graph") ∧
        cs.length = ((entryNodes nodes edges).filter
          (fun nd => failed (proc nd))).length) := by
  have hemp : ¬((entryNodes nodes edges).isEmpty = true) := by
    simpa using hne
  rw [graphRunForM_pass, if_neg hemp]
  refine ⟨?_, ?_, ?_⟩
  · split <;> rfl
  · intro hnofail
    have h0 : (entryNodes nodes edges).filterMap
        (fun nd => errOf (proc nd)) = [] :=
      (filterMap_errOf_eq_nil proc _).mpr hnofail
    simp [h0]
  · intro hfail
    have h0 : (entryNodes nodes edges).filterMap
        (fun nd => errOf (proc nd)) ≠ [] := by
      intro h
      exact hfail ((filterMap_errOf_eq_nil proc _).mp h)
    refine ⟨(entryNodes nodes edges).filterMap (fun nd => errOf (proc nd)),
      ?_, length_filterMap_errOf proc _⟩
    rw [if_neg (by simpa using h0)]

/-- Concrete instance of the aggregation theorem: three entry nodes whose
dispatches all fail produce an aggregate error with exactly three causes. -/
theorem graph_failure_aggregation_witness :
    ∃ cs, (graphRunForM passHook [1, 2, 3] []
        (fun nd => .error (.simple (toString nd)))).2 =
        .error (.aggregate cs "Failed to run graph") ∧
      cs.length = 3 := by
  have h := (graph_failure_aggregation [1, 2, 3] []
    (fun nd => .error (.simple (toString nd))) (by decide)).2.2
    (by decide)
  simpa using h

/-! ### C2: Edge.write delegation -/

/-- Lift of SharedComponent.op to a fuel-indexed tail, used where the op
tail recurses (the Edge.write / Node.write cycle): none means the
computation did not settle within the given fuel. -/
def runOpF {α : Type} (hk : Hook α) (c : α)
    (tail : α → Option (Except Err α)) : Option (Except Err α) :=
  match hk c with
  | .error e => some (.error e)
  | .ok (c', true) => tail c'
  | .ok (c', false) => some (.ok c')

mutual

/-- Edge.write from src/lib/Edge.ts (lines 56-70), exactly as written:
dispatch the edge `write` op on the raw context with the tail
`() => this.target.write(this, ctx)` — the TARGET node's `write` — and
wrap any failure as `AggregateError([error], "Failed to write to edge")`.
Fuel-indexed because the target write calls back into this very method. -/
def edgeWriteF {σ : Type} : Nat → Hook σ → Hook (Bool × Bool × σ) → Bool →
    Bool → σ → Option (Except Err σ)
  | 0, _, _, _, _, _ => none
  | n + 1, hkW, hkO, init, corr, c =>
    match runOpF hkW c (fun c' =>
        (nodeWriteF n hkW hkO init corr c').map (fun r =>
          r.map (fun p => p))) with
    | none => none
    | some (.ok c') => some (.ok c')
    | some (.error e) =>
      some (.error (.aggregate [e] "Failed to write to edge"))

/-- Node.write from src/lib/Node.ts (lines 333-360), called on the edge
target by Edge.write: guards for corrupted and uninitialized, then the
`outgoing` op on `{edge, ctx, api, pass: true, passed: false}` whose tail
checks the pass/passed flags and then awaits `edge.write(ctx)` — calling
straight back into Edge.write.  No catch, so errors propagate raw. -/
def nodeWriteF {σ : Type} : Nat → Hook σ → Hook (Bool × Bool × σ) → Bool →
    Bool → σ → Option (Except Err σ)
  | 0, _, _, _, _, _ => none
  | n + 1, hkW, hkO, init, corr, c =>
    if corr then some (.error (.simple "Cannot write to corrupted node"))
    else if !init then
      some (.error (.simple "Cannot write to uninitialized node"))
    else
      match hkO (true, false, c) with
      | .error e => some (.error e)
      | .ok ((pass, passed, c'), callNext) =>
        if !callNext then some (.ok c')
        else if !pass then some (.ok c')
        else if passed then
          some (.error (.simple
            "Node has already been passed. If this is intentional, then set `pass` to `false` in the operation context."))
        else
          match edgeWriteF n hkW hkO init corr c' with
          | none => none
          | some (.ok c'') => some (.ok c'')
          | some (.error e) => some (.error e)

end

/-- Modelled from the spec: the intended Edge.write ("Writing delegates to
the target node's ingress (`read`), wrapping any failure as an aggregate
error \"Failed to write to edge\"").  The target read is Node.read as
implemented in src/lib/Node.ts (nodeReadM above); only the delegation
target differs from the source code. -/
def edgeWriteSpec {σ : Type} (hkW : Hook σ) (target : NodeSt σ)
    (hkIn : Hook (Bool × Bool × σ)) (c : σ) : NodeSt σ × Except Err Unit :=
  match hkW c with
  | .error e =>
    (target, .error (.aggregate [e] "Failed to write to edge"))
  | .ok (c', callNext) =>
    if callNext then
      match nodeReadM target hkIn c' with
      | (t', .ok u) => (t', .ok u)
      | (t', .error e) =>
        (t', .error (.aggregate [e] "Failed to write to edge"))
    else (target, .ok ())

theorem edgeWrite_diverges_aux {σ : Type} : ∀ n : Nat,
    (∀ c' : σ, edgeWriteF n passHook passHook true false c' = none) ∧
    (∀ c' : σ, nodeWriteF n passHook passHook true false c' = none) := by
  intro n
  induction n with
  | zero => exact ⟨fun _ => rfl, fun _ => rfl⟩
  | succ m ih =>
    constructor
    · intro c'
      rw [edgeWriteF, runOpF]
      simp [passHook, ih.2 c']
    · intro c'
      rw [nodeWriteF]
      simp only [passHook]
      rw [if_neg (by simp), if_neg (by simp)]
      simp only [Bool.not_true, Bool.false_eq_true, if_false,
        Bool.not_false, ih.1 c']

/-- C2.  As implemented, Edge.write never delegates to the target node's
`read`: it invokes the target node's `write`, whose `outgoing` tail calls
`edge.write(ctx)` again, so under the default pass-through ops on a
healthy (initialized, uncorrupted) target the write never settles for any
amount of fuel — in particular the context is never enqueued on the
target's queue.  The spec-modelled Edge.write that delegates to the target
`read` instead settles immediately and appends the context to the target
queue, and wraps a failing delegation as the
"Failed to write to edge" aggregate. -/
theorem edge_write_delegation (c : Nat) (q : List Nat) (er : Err) :
    (∀ n : Nat,
      edgeWriteF n passHook passHook true false c = none) ∧
    (edgeWriteSpec passHook ⟨true, false, [], q⟩ passHook c =
      (⟨true, false, [], q ++ [c]⟩, .ok ())) ∧
    (edgeWriteSpec (fun _ => .error er) ⟨true, false, [], q⟩ passHook c =
      (⟨true, false, [], q⟩,
        .error (.aggregate [er] "Failed to write to edge"))) := by
  refine ⟨fun n => (edgeWrite_diverges_aux n).1 c, ?_, ?_⟩
  · rw [edgeWriteSpec, passHook]
    simp only [if_pos rfl]
    rw [nodeReadM.eq_def]
    rfl
  · rw [edgeWriteSpec]

/-- Concrete evaluation of the divergence at small fuel values, next to
the spec-modelled delegation on the same input. -/
theorem edge_write_delegation_witness :
    edgeWriteF 5 passHook passHook true false (0 : Nat) = none ∧
    edgeWriteSpec passHook ⟨true, false, [], []⟩ passHook (0 : Nat) =
      (⟨true, false, [], [0]⟩, .ok ()) :=
  ⟨(edge_write_delegation 0 [] (.simple "x")).1 5,
    (edge_write_delegation 0 [] (.simple "x")).2.1⟩

/-! ### C4: Output one-shot flush and queue guards -/

/-- An edge as seen by an Output: its identity and the id of its source
node. -/
structure OEdge where
  eid : Nat
  source : Nat
deriving Repr, DecidableEq

/-- Observable state of an Output (src/lib/Output.ts): the owning node id,
the `flushed` flag and the queued edge set (insertion order kept). -/
structure OutSt where
  owner : Nat
  flushed : Bool
  edges : List OEdge
deriving Repr, DecidableEq

/-- Output.queue from src/lib/Output.ts (lines 69-79): reject when already
flushed, when the edge is already queued, and when the edge source is not
the owning node; otherwise add the edge. -/
def outQueueM (o : OutSt) (e : OEdge) : OutSt × Except Err Unit :=
  if o.flushed then
    (o, .error (.simple "Queue has already been flushed."))
  else if e ∈ o.edges then
    (o, .error (.simple "Edge has already been queued."))
  else if e.source ≠ o.owner then
    (o, .error (.simple "Edge does not belong to this node."))
  else ({ o with edges := o.edges ++ [e] }, .ok ())

/-- Output.flush from src/lib/Output.ts (lines 101-120): reject when
already flushed (before touching any edge); otherwise dispatch
`edge.source.process(edge, ctx)` for every queued edge (settlements given
by `proc`), settle all, and when any rejected throw the aggregate
"One or more edges failed to process." WITHOUT setting the `flushed` flag;
`flushed` is set only after a fully successful pass.  The middle component
lists the edges that were dispatched by this call. -/
def outFlushM (o : OutSt) (proc : OEdge → Except Err Unit) :
    OutSt × List OEdge × Except Err Unit :=
  if o.flushed then
    (o, [], .error (.simple "Queue has already been flushed."))
  else
    let errs := o.edges.filterMap (fun e => errOf (proc e))
    if errs.isEmpty then ({ o with flushed := true }, o.edges, .ok ())
    else
      (o, o.edges,
        .error (.aggregate errs "One or more edges failed to process."))

/-- Counterexample to C4 as stated: on an Output whose single queued edge
fails to process, the first flush rejects and leaves the Output
un-flushed, so the second flush call is NOT rejected with
"Queue has already been flushed." — it re-dispatches the same edge
(affecting the effects of the first call) and throws the processing
aggregate again. -/
theorem output_reflush_counterexample :
    (outFlushM ⟨0, false, [⟨0, 0⟩]⟩ (fun _ => .error (.simple "boom"))).1.flushed
      = false ∧
    ((outFlushM
        (outFlushM ⟨0, false, [⟨0, 0⟩]⟩
          (fun _ => .error (.simple "boom"))).1
        (fun _ => .error (.simple "boom"))).2.1 = [⟨0, 0⟩] ∧
      (outFlushM
        (outFlushM ⟨0, false, [⟨0, 0⟩]⟩
          (fun _ => .error (.simple "boom"))).1
        (fun _ => .error (.simple "boom"))).2.2 ≠
        .error (.simple "Queue has already been flushed.")) := by
  refine ⟨rfl, rfl, ?_⟩
  intro h
  rw [show (outFlushM ⟨0, false, [⟨0, 0⟩]⟩
      (fun _ => .error (.simple "boom"))).1 =
      ⟨0, false, [⟨0, 0⟩]⟩ from rfl] at h
  rw [show (outFlushM ⟨0, false, [⟨0, 0⟩]⟩
      (fun _ => .error (.simple "boom"))).2.2 =
      .error (.aggregate [.simple "boom"]
        "One or more edges failed to process.") from rfl] at h
  exact absurd (Except.error.inj h) (by simp)

/-- C4 (amended).  After a SUCCESSFUL flush the Output is terminal: a
second flush is rejected with "Queue has already been flushed." before
dispatching to any edge, and queuing is likewise rejected.  Queuing an
already-queued edge is rejected while the first queue entry stays in
place, and queuing an edge whose source is not the owning node is
rejected.  A FAILED flush, however, leaves `flushed` false, so a retry
re-dispatches every queued edge rather than being rejected as flushed. -/
theorem output_one_shot (o : OutSt) (e : OEdge)
    (proc : OEdge → Except Err Unit) :
    ((outFlushM o proc).2.2 = .ok () →
      (outFlushM (outFlushM o proc).1 proc).2.2 =
          .error (.simple "Queue has already been flushed.") ∧
        (outFlushM (outFlushM o proc).1 proc).2.1 = [] ∧
        (outQueueM (outFlushM o proc).1 e).2 =
          .error (.simple "Queue has already been flushed.")) ∧
    (o.flushed = false → e.source = o.owner → e ∉ o.edges →
      (outQueueM (outQueueM o e).1 e).2 =
          .error (.simple "Edge has already been queued.") ∧
        (outQueueM (outQueueM o e).1 e).1 = (outQueueM o e).1 ∧
        e ∈ (outQueueM o e).1.edges) ∧
    (o.flushed = false → e.source ≠ o.owner → e ∉ o.edges →
      (outQueueM o e).2 =
        .error (.simple "Edge does not belong to this node.")) ∧
    ((outFlushM o proc).2.2 ≠ .ok () → o.flushed = false →
      (outFlushM o proc).1 = o ∧
      (outFlushM (outFlushM o proc).1 proc).2.1 = o.edges) := by
  refine ⟨?_, ?_, ?_, ?_⟩
  · intro hok
    have hflushed : (outFlushM o proc).1.flushed = true := by
      rw [outFlushM.eq_def] at hok ⊢
      by_cases hf : o.flushed
      · rw [if_pos hf] at hok
        exact absurd hok (by simp)
      · rw [if_neg hf] at hok ⊢
        by_cases he : (o.edges.filterMap (fun e => errOf (proc e))).isEmpty
        · rw [if_pos he]
        · rw [if_neg he] at hok
          exact absurd hok (by simp)
    refine ⟨?_, ?_, ?_⟩
    · rw [outFlushM.eq_def, if_pos hflushed]
    · rw [outFlushM.eq_def, if_pos hflushed]
    · rw [outQueueM.eq_def, if_pos hflushed]
  · intro hf hsrc hmem
    have h1 : outQueueM o e = ({ o with edges := o.edges ++ [e] }, .ok ()) := by
      rw [outQueueM.eq_def, if_neg (by simp [hf]),
        if_neg (by simpa using hmem), if_neg (by simp [hsrc])]
    refine ⟨?_, ?_, ?_⟩
    · rw [h1, outQueueM.eq_def]
      simp [hf]
    · rw [h1, outQueueM.eq_def]
      simp [hf]
    · rw [h1]
      simp
  · intro hf hsrc hmem
    rw [outQueueM.eq_def, if_neg (by simp [hf]),
      if_neg (by simpa using hmem), if_pos (by simpa using hsrc)]
  · intro hfail hf
    have h2 : ¬(o.edges.filterMap (fun e => errOf (proc e))).isEmpty = true := by
      intro he
      apply hfail
      rw [outFlushM.eq_def, if_neg (by simp [hf]), if_pos he]
    have h1 : (outFlushM o proc).1 = o := by
      rw [outFlushM.eq_def, if_neg (by simp [hf]), if_neg h2]
    refine ⟨h1, ?_⟩
    rw [h1, outFlushM.eq_def, if_neg (by simp [hf]), if_neg h2]

/-- Concrete instance of the amended one-shot behaviour: a successful
flush followed by a rejected re-flush that dispatches nothing, on an
Output with one healthy queued edge. -/
theorem output_one_shot_witness :
    (outFlushM
        (outFlushM ⟨0, false, [⟨0, 0⟩]⟩ (fun _ => .ok ())).1
        (fun _ => .ok ())).2.2 =
      .error (.simple "Queue has already been flushed.") ∧
    (outFlushM
        (outFlushM ⟨0, false, [⟨0, 0⟩]⟩ (fun _ => .ok ())).1
        (fun _ => .ok ())).2.1 = [] :=
  ⟨((output_one_shot ⟨0, false, [⟨0, 0⟩]⟩ ⟨0, 0⟩ (fun _ => .ok ())).1
      rfl).1,
    ((output_one_shot ⟨0, false, [⟨0, 0⟩]⟩ ⟨0, 0⟩ (fun _ => .ok ())).1
      rfl).2.1⟩

/-! ### C9: Graph.addEdge endpoint registration -/

/-- Graph.addEdge from src/lib/Graph.ts (lines 92-116): inside the
`addEdge` op tail, construct the Edge, then `await source.addEdge(edge)`,
then `await target.addEdge(edge)`, then insert into the graph edge set (a
JS Set).  There is no catch and no rollback: a failure of either endpoint
registration simply propagates, leaving whatever had already been done in
place.  Returns the post states of the source node, the target node and
the graph edge set, and the settlement. -/
def graphAddEdgeM {σ : Type} (hkG : Hook (Bool × Bool))
    (hkS hkT : Hook (Bool × Bool)) (s t : NodeSt σ) (ges : List Nat)
    (e : Nat) : NodeSt σ × NodeSt σ × List Nat × Except Err Unit :=
  match hkG (true, false) with
  | .error er => (s, t, ges, .error er)
  | .ok ((add, _), callNext) =>
    if !callNext then (s, t, ges, .ok ())
    else if add then
      match nodeAddEdgeM s hkS e with
      | (s', .error er) => (s', t, ges, .error er)
      | (s', .ok _) =>
        match nodeAddEdgeM t hkT e with
        | (t', .error er) => (s', t', ges, .error er)
        | (t', .ok _) =>
          (s', t', if e ∈ ges then ges else ges ++ [e], .ok ())
    else (s, t, ges, .ok ())

/-- Counterexample to C9 as stated: with default hooks, an initialized
healthy source and a corrupted target, Graph.addEdge fails (the target
registration rejects) yet the source node's edge set retains the new
edge — the claimed atomicity ("no edge set retains the edge after the
failed call") does not hold. -/
theorem graph_add_edge_counterexample :
    (graphAddEdgeM (σ := Nat) passHook passHook passHook
        ⟨true, false, [], []⟩ ⟨true, true, [], []⟩ [] 7).2.2.2 ≠ .ok () ∧
    7 ∈ (graphAddEdgeM (σ := Nat) passHook passHook passHook
        ⟨true, false, [], []⟩ ⟨true, true, [], []⟩ [] 7).1.edges := by
  constructor
  · intro h
    rw [show (graphAddEdgeM (σ := Nat) passHook passHook passHook
        ⟨true, false, [], []⟩ ⟨true, true, [], []⟩ [] 7).2.2.2 =
        .error (.aggregate [.simple "Cannot add edge to corrupted node"]
          "Failed to add edge to node") from rfl] at h
    exact absurd h (by simp)
  · rw [show (graphAddEdgeM (σ := Nat) passHook passHook passHook
        ⟨true, false, [], []⟩ ⟨true, true, [], []⟩ [] 7).1.edges =
        [7] from rfl]
    simp

/-- C9 (amended).  With default hooks and an edge id not already present
anywhere, a failed Graph.addEdge never registers the edge with the graph's
edge set and never leaves it in the target node's edge set; but when the
source registration succeeded and the target registration failed, the
source node's edge set does retain the edge — there is no rollback of the
earlier endpoint registration. -/
theorem graph_add_edge_no_rollback {σ : Type} (s t : NodeSt σ)
    (ges : List Nat) (e : Nat) (hs : e ∉ s.edges) (ht : e ∉ t.edges)
    (hg : e ∉ ges) :
    ((graphAddEdgeM passHook passHook passHook s t ges e).2.2.2 ≠ .ok () →
      (graphAddEdgeM passHook passHook passHook s t ges e).2.2.1 = ges ∧
      e ∉ (graphAddEdgeM passHook passHook passHook s t ges e).2.1.edges) ∧
    ((nodeAddEdgeM s passHook e).2 = .ok () →
      (nodeAddEdgeM t passHook e).2 ≠ .ok () →
      e ∈ (graphAddEdgeM passHook passHook passHook s t ges e).1.edges) := by
  obtain ⟨si, sc, se, sq⟩ := s
  obtain ⟨ti, tc, te, tq⟩ := t
  simp only [] at hs ht
  constructor
  · intro hfail
    cases sc <;> cases si <;> cases tc <;> cases ti <;>
      simp [graphAddEdgeM, nodeAddEdgeM, passHook, hs, ht, hg] at hfail ⊢
  · intro hsok htfail
    cases sc <;> cases si <;> cases tc <;> cases ti <;>
      simp [graphAddEdgeM, nodeAddEdgeM, passHook, hs, ht, hg] at hsok htfail ⊢

/-- Concrete instance of the no-rollback theorem at the counterexample
input: the failed call leaves the graph edge set and the target untouched,
while the source retains the edge. -/
theorem graph_add_edge_no_rollback_witness :
    ((graphAddEdgeM (σ := Nat) passHook passHook passHook
        ⟨true, false, [], []⟩ ⟨true, true, [], []⟩ [] 7).2.2.1 = [] ∧
      7 ∉ (graphAddEdgeM (σ := Nat) passHook passHook passHook
        ⟨true, false, [], []⟩ ⟨true, true, [], []⟩ [] 7).2.1.edges) ∧
    7 ∈ (graphAddEdgeM (σ := Nat) passHook passHook passHook
        ⟨true, false, [], []⟩ ⟨true, true, [], []⟩ [] 7).1.edges :=
  ⟨(graph_add_edge_no_rollback ⟨true, false, [], []⟩ ⟨true, true, [], []⟩
      [] 7 (by simp) (by simp) (by simp)).1
      (by
        intro h
        rw [show (graphAddEdgeM (σ := Nat) passHook passHook passHook
            ⟨true, false, [], []⟩ ⟨true, true, [], []⟩ [] 7).2.2.2 =
            .error (.aggregate [.simple "Cannot add edge to corrupted node"]
              "Failed to add edge to node") from rfl] at h
        exact absurd h (by simp)),
    (graph_add_edge_no_rollback ⟨true, false, [], []⟩ ⟨true, true, [], []⟩
      [] 7 (by simp) (by simp) (by simp)).2 rfl
      (by
        intro h
        rw [show (nodeAddEdgeM (σ := Nat) ⟨true, true, [], []⟩ passHook
            7).2 =
            .error (.aggregate [.simple "Cannot add edge to corrupted node"]
              "Failed to add edge to node") from rfl] at h
        exact absurd h (by simp))⟩

/-! ### C8: the drain loop, bounded concurrency and failure tolerance -/

/-- The drain loop Node.#loop from src/lib/Node.ts (lines 460-497),
fuel-indexed for the while loop: while the queue is non-empty, splice off
up to `concurrency` contexts (or all of them when `concurrency` is
undefined, modelled as none), run the batch concurrently through runFor
(each settlement given by `runs`), aggregate the batch rejections as
`AggregateError(causes, "Failed to run node for context(s)")` and report
that error via the catch-and-dispatch — WITHOUT stopping the loop, which
proceeds to the next batch.  Returns the batches in processing order, the
reported batch errors and the remaining queue when the fuel ran out. -/
def loopRunM {σ : Type} : Nat → Option Nat → (σ → Except Err Unit) →
    List σ → List (List σ) × List Err × List σ
  | 0, _, _, q => ([], [], q)
  | _ + 1, _, _, [] => ([], [], [])
  | n + 1, k, runs, x :: xs =>
    let sz := k.getD (x :: xs).length
    let batch := (x :: xs).take sz
    let rest := (x :: xs).drop sz
    let errs := batch.filterMap (fun c => errOf (runs c))
    let reported :=
      if errs.isEmpty then []
      else [Err.aggregate errs "Failed to run node for context(s)"]
    let out := loopRunM n k runs rest
    (batch :: out.1, reported ++ out.2.1, out.2.2)

/-- Never-drains predicate: no amount of fuel empties the queue. -/
def neverDrains (k : Option Nat) (q : List Nat) : Prop :=
  ∀ n : Nat, (loopRunM n k (fun _ => .ok ()) q).2.2 ≠ []

/-- Counterexample to C8 as stated: with concurrency k = 0 and a queue of
m = 1 > 0 contexts, every iteration splices off an empty batch
(`splice(0, 0)`), so the queue never shrinks and the context is never
processed — the loop spins forever.  The claim "all m contexts are
eventually processed" therefore fails for k = 0. -/
theorem loop_zero_concurrency_counterexample :
    (0 : Nat) < 1 ∧ neverDrains (some 0) [5] := by
  refine ⟨Nat.zero_lt_one, ?_⟩
  intro n
  induction n with
  | zero => simp [loopRunM]
  | succ m ih =>
    rw [loopRunM]
    simpa [List.take, List.drop] using ih

theorem loopRunM_join {σ : Type} (k : Option Nat)
    (runs : σ → Except Err Unit) : ∀ (n : Nat) (q : List σ),
    (loopRunM n k runs q).1.flatten ++ (loopRunM n k runs q).2.2 = q := by
  intro n
  induction n with
  | zero => intro q; simp [loopRunM]
  | succ m ih =>
    intro q
    cases q with
    | nil => simp [loopRunM]
    | cons x xs =>
      rw [loopRunM]
      simp only [List.flatten_cons, List.append_assoc, ih]
      exact List.take_append_drop _ _

theorem loopRunM_batch_le {σ : Type} (c : Nat)
    (runs : σ → Except Err Unit) : ∀ (n : Nat) (q : List σ),
    ∀ b ∈ (loopRunM n (some c) runs q).1, b.length ≤ c := by
  intro n
  induction n with
  | zero => intro q b hb; simp [loopRunM] at hb
  | succ m ih =>
    intro q b hb
    cases q with
    | nil => simp [loopRunM] at hb
    | cons x xs =>
      rw [loopRunM] at hb
      rcases List.mem_cons.mp hb with h | h
      · subst h
        simp
      · exact ih _ b h

theorem loopRunM_shape_independent {σ : Type} (k : Option Nat)
    (f g : σ → Except Err Unit) : ∀ (n : Nat) (q : List σ),
    (loopRunM n k f q).1 = (loopRunM n k g q).1 ∧
    (loopRunM n k f q).2.2 = (loopRunM n k g q).2.2 := by
  intro n
  induction n with
  | zero => intro q; exact ⟨rfl, rfl⟩
  | succ m ih =>
    intro q
    cases q with
    | nil => exact ⟨rfl, rfl⟩
    | cons x xs =>
      rw [loopRunM, loopRunM]
      exact ⟨by rw [(ih _).1], (ih _).2⟩

theorem loopRunM_drains {σ : Type} (c : Nat) (hc : 1 ≤ c)
    (runs : σ → Except Err Unit) : ∀ (n : Nat) (q : List σ),
    q.length ≤ n → (loopRunM n (some c) runs q).2.2 = [] := by
  intro n
  induction n with
  | zero =>
    intro q hq
    rw [List.length_eq_zero.mp (Nat.le_zero.mp hq)]
    simp [loopRunM]
  | succ m ih =>
    intro q hq
    cases q with
    | nil => simp [loopRunM]
    | cons x xs =>
      rw [loopRunM]
      refine ih _ ?_
      have : (x :: xs).length = xs.length + 1 := rfl
      calc ((x :: xs).drop ((some c).getD (x :: xs).length)).length
          = (x :: xs).length - c := by simp
        _ ≤ m := by simp at hq; omega

/-- C8 (amended).  For a node with concurrency limit k ≥ 1 (the claim
fails at k = 0, see the counterexample): every batch the drain loop runs
concurrently has at most k contexts, the batches partition the queue in
FIFO order, for a queue of length m a fuel of m iterations drains it
completely, and the batching and the remaining queue are independent of
which runs fail — a failing batch is reported via the dispatched aggregate
error but never stops the loop. -/
theorem loop_bounded_concurrency {σ : Type} (c : Nat) (hc : 1 ≤ c)
    (runs alt : σ → Except Err Unit) (n : Nat) (q : List σ) :
    (∀ b ∈ (loopRunM n (some c) runs q).1, b.length ≤ c) ∧
    ((loopRunM n (some c) runs q).1.flatten ++
      (loopRunM n (some c) runs q).2.2 = q) ∧
    (q.length ≤ n → (loopRunM n (some c) runs q).2.2 = [] ∧
      (loopRunM n (some c) runs q).1.flatten = q) ∧
    ((loopRunM n (some c) runs q).1 = (loopRunM n (some c) alt q).1 ∧
      (loopRunM n (some c) runs q).2.2 =
        (loopRunM n (some c) alt q).2.2) := by
  refine ⟨loopRunM_batch_le c runs n q, loopRunM_join (some c) runs n q,
    ?_, loopRunM_shape_independent (some c) runs alt n q⟩
  intro hlen
  have hdr := loopRunM_drains c hc runs n q hlen
  refine ⟨hdr, ?_⟩
  have := loopRunM_join (some c) runs n q
  rw [hdr, List.append_nil] at this
  exact this

/-- Concrete instance of the bounded-concurrency theorem: k = 2 and a
queue of 5 contexts, where two contexts fail; batching, FIFO coverage and
full drainage are unaffected by the failures. -/
theorem loop_bounded_concurrency_witness :
    (∀ b ∈ (loopRunM 5 (some 2)
        (fun x => if x = 1 ∨ x = 3 then .error (.simple "boom")
                  else .ok ()) [1, 2, 3, 4, 5]).1, b.length ≤ 2) ∧
    ((loopRunM 5 (some 2)
        (fun x => if x = 1 ∨ x = 3 then .error (.simple "boom")
                  else .ok ()) [1, 2, 3, 4, 5]).2.2 = [] ∧
      (loopRunM 5 (some 2)
        (fun x => if x = 1 ∨ x = 3 then .error (.simple "boom")
                  else .ok ()) [1, 2, 3, 4, 5]).1.flatten =
        [1, 2, 3, 4, 5]) :=
  ⟨(loop_bounded_concurrency 2 (by decide)
      (fun x => if x = 1 ∨ x = 3 then .error (.simple "boom") else .ok ())
      (fun _ => .ok ()) 5 [1, 2, 3, 4, 5]).1,
    (loop_bounded_concurrency 2 (by decide)
      (fun x => if x = 1 ∨ x = 3 then .error (.simple "boom") else .ok ())
      (fun _ => .ok ()) 5 [1, 2, 3, 4, 5]).2.2.1 (by decide)⟩
